import Mathlib

/-!
Shallow embedding of `knox/auth.py` (`TokenAuthentication`): header parsing,
credential matching against a store of salted-digest token records, lazy
expiry cleanup, and throttled expiry renewal.

Timestamps are modelled as `Int` (seconds); `expires = none` models a
never-expiring token (`expires is None`).  The hash function is a parameter
`HashFn`; a `none` result models `hash_token` raising
`TypeError`/`binascii.Error` on structurally invalid input.  The credential
store is a `List AuthTokenRec`; store mutations follow the spec's
CredentialStore contract where the model code is not in `auth.py` itself.
-/

namespace Knox

structure UserRec where
  id : Nat
  username : String
  isActive : Bool
deriving Repr, DecidableEq

structure AuthTokenRec where
  tokenKey : String
  digest : String
  salt : String
  user : UserRec
  expires : Option Int
deriving Repr, DecidableEq

inductive EventSource
  | other_token
  | auth_token
deriving Repr, DecidableEq

/-- One `token_expired` signal emission: `token_expired.send(sender=..., username=username, source=...)`. -/
structure ExpiredEvent where
  username : String
  source : EventSource
deriving Repr, DecidableEq

/-- Failure outcomes of `authenticate_credentials`:
`authFailed msg` models `exceptions.AuthenticationFailed(msg)`;
`typeError` models the unhandled `TypeError` raised by
`new_expiry - current_expiry` when `expires is None`;
`storeError` models an exception raised by `auth_token.save(...)`. -/
inductive AuthError
  | authFailed (msg : String)
  | typeError
  | storeError
deriving Repr, DecidableEq

def invalidTokenMsg : String := "Invalid token."

def inactiveUserMsg : String := "User inactive or deleted."

def noCredentialsMsg : String := "Invalid token header. No credentials provided."

def spacesMsg : String := "Invalid token header. Token string should not contain spaces."

/-- Settings read by `auth.py`: `CONSTANTS.TOKEN_KEY_LENGTH`,
`knox_settings.AUTO_REFRESH`, `knox_settings.TOKEN_TTL`,
`knox_settings.MIN_REFRESH_INTERVAL`. -/
structure Config where
  tokenKeyLength : Nat
  autoRefresh : Bool
  tokenTTL : Int
  minRefreshInterval : Int
deriving Repr, DecidableEq

/-- `hash_token(token, salt)`; `none` models `TypeError`/`binascii.Error`. -/
abbrev HashFn := String → String → Option String

/-- `t.expires is not None and t.expires < timezone.now()`. -/
def isExpiredAt (now : Int) (t : AuthTokenRec) : Bool :=
  match t.expires with
  | some e => decide (e < now)
  | none => false

/-- Modelled from the spec: CredentialStore.delete — records are keyed by
their digest (the model's primary key), so deletion removes the row with
that digest and is idempotent. -/
def deleteTok (db : List AuthTokenRec) (d : String) : List AuthTokenRec :=
  db.filter (fun t => t.digest != d)

/-- Modelled from the spec: CredentialStore.updateExpiry — the partial
update done by `auth_token.save(update_fields=('expires',))`. -/
def updateExpiry (db : List AuthTokenRec) (d : String) (e : Int) : List AuthTokenRec :=
  db.map (fun t => if t.digest == d then { t with expires := some e } else t)

/-- `auth_token.user.auth_token_set.all()`: every record of the same owner. -/
def siblingsOf (db : List AuthTokenRec) (c : AuthTokenRec) : List AuthTokenRec :=
  db.filter (fun t => t.user.id == c.user.id)

/-- The sibling loop of `_cleanup_token`: for each `other_token` with a
different digest whose `expires` is set and in the past, delete it and emit
a `token_expired` event with `source="other_token"`. -/
def cleanupSiblings (now : Int) (cDigest : String) :
    List AuthTokenRec → List AuthTokenRec → List ExpiredEvent →
    List AuthTokenRec × List ExpiredEvent
  | [], db, evs => (db, evs)
  | o :: rest, db, evs =>
    if o.digest != cDigest && isExpiredAt now o then
      cleanupSiblings now cDigest rest (deleteTok db o.digest)
        (evs ++ [⟨o.user.username, EventSource.other_token⟩])
    else
      cleanupSiblings now cDigest rest db evs

structure CleanupResult where
  db : List AuthTokenRec
  events : List ExpiredEvent
  deleted : Bool
deriving Repr, DecidableEq

/-- `TokenAuthentication._cleanup_token`. -/
def cleanupToken (now : Int) (db : List AuthTokenRec) (evs : List ExpiredEvent)
    (c : AuthTokenRec) : CleanupResult :=
  let p := cleanupSiblings now c.digest (siblingsOf db c) db evs
  if isExpiredAt now c then
    ⟨deleteTok p.1 c.digest, p.2 ++ [⟨c.user.username, EventSource.auth_token⟩], true⟩
  else
    ⟨p.1, p.2, false⟩

/-- `TokenAuthentication.renew_token`.  `saveFails` models the durable
`save` call raising; the `none`-expiry branch models the `TypeError` raised
by `new_expiry - current_expiry` when `current_expiry` is `None` (the
in-memory assignment made before that subtraction is lost with the
exception). -/
def renewToken (cfg : Config) (now : Int) (saveFails : Bool)
    (db : List AuthTokenRec) (c : AuthTokenRec) :
    Except AuthError (List AuthTokenRec × AuthTokenRec) :=
  match c.expires with
  | none => .error .typeError
  | some cur =>
    let newExpiry := now + cfg.tokenTTL
    let c2 := { c with expires := some newExpiry }
    if cfg.minRefreshInterval < newExpiry - cur then
      if saveFails then .error .storeError
      else .ok (updateExpiry db c.digest newExpiry, c2)
    else .ok (db, c2)

/-- `TokenAuthentication.validate_user`. -/
def validateUser (c : AuthTokenRec) : Except AuthError (UserRec × AuthTokenRec) :=
  if c.user.isActive then .ok (c.user, c)
  else .error (.authFailed inactiveUserMsg)

instance {α β : Type} [DecidableEq α] [DecidableEq β] :
    DecidableEq (Except α β) := fun a b =>
  match a, b with
  | .error x, .error y =>
    if h : x = y then .isTrue (by rw [h]) else .isFalse (by simp [h])
  | .error _, .ok _ => .isFalse (by simp)
  | .ok _, .error _ => .isFalse (by simp)
  | .ok x, .ok y =>
    if h : x = y then .isTrue (by rw [h]) else .isFalse (by simp [h])

structure CallResult where
  db : List AuthTokenRec
  events : List ExpiredEvent
  outcome : Except AuthError (UserRec × AuthTokenRec)
deriving Repr, DecidableEq

/-- The candidate loop of `authenticate_credentials`, over the snapshot of
records returned by `AuthToken.objects.filter(token_key=...)`. -/
def authLoop (hash : HashFn) (cfg : Config) (now : Int) (saveFails : Bool)
    (token : String) :
    List AuthTokenRec → List AuthTokenRec → List ExpiredEvent → CallResult
  | [], db, evs => ⟨db, evs, .error (.authFailed invalidTokenMsg)⟩
  | c :: rest, db, evs =>
    let r := cleanupToken now db evs c
    if r.deleted then
      authLoop hash cfg now saveFails token rest r.db r.events
    else
      match hash token c.salt with
      | none => ⟨r.db, r.events, .error (.authFailed invalidTokenMsg)⟩
      | some dg =>
        if dg == c.digest then
          if cfg.autoRefresh then
            match renewToken cfg now saveFails r.db c with
            | .error e => ⟨r.db, r.events, .error e⟩
            | .ok (db2, c2) => ⟨db2, r.events, validateUser c2⟩
          else ⟨r.db, r.events, validateUser c⟩
        else
          authLoop hash cfg now saveFails token rest r.db r.events

/-- Python's `token[:CONSTANTS.TOKEN_KEY_LENGTH]` on the decoded string. -/
def takeStr (s : String) (n : Nat) : String := String.mk (s.data.take n)

/-- `AuthToken.objects.filter(token_key=token[:CONSTANTS.TOKEN_KEY_LENGTH])`. -/
def candidatesFor (cfg : Config) (db : List AuthTokenRec) (token : String) :
    List AuthTokenRec :=
  db.filter (fun t => t.tokenKey == takeStr token cfg.tokenKeyLength)

/-- `TokenAuthentication.authenticate_credentials`. -/
def authenticateCredentials (hash : HashFn) (cfg : Config) (now : Int)
    (saveFails : Bool) (db : List AuthTokenRec) (evs : List ExpiredEvent)
    (token : String) : CallResult :=
  authLoop hash cfg now saveFails token (candidatesFor cfg db token) db evs

/-- Python `bytes.split()`: split on runs of whitespace, no empty words. -/
def wordsAux : List Char → List Char → List (List Char)
  | acc, [] => if acc.isEmpty then [] else [acc.reverse]
  | acc, ch :: rest =>
    if ch.isWhitespace then
      if acc.isEmpty then wordsAux [] rest
      else acc.reverse :: wordsAux [] rest
    else wordsAux (ch :: acc) rest

def splitWords (s : String) : List String :=
  (wordsAux [] s.data).map (fun l => String.mk l)

/-- Python `bytes.lower()` on the header word (ASCII). -/
def lowerStr (s : String) : String := String.mk (s.data.map Char.toLower)

structure FullResult where
  db : List AuthTokenRec
  events : List ExpiredEvent
  outcome : Option (Except AuthError (UserRec × AuthTokenRec))
deriving Repr, DecidableEq

/-- `TokenAuthentication.authenticate`.  `outcome = none` models the
`return None` taken when no credential is presented. -/
def authenticate (hash : HashFn) (cfg : Config) (now : Int) (saveFails : Bool)
    (db : List AuthTokenRec) (evs : List ExpiredEvent) (header : String) :
    FullResult :=
  match splitWords header with
  | [] => ⟨db, evs, none⟩
  | w :: rest =>
    if lowerStr w != "token" then ⟨db, evs, none⟩
    else
      match rest with
      | [] => ⟨db, evs, some (.error (.authFailed noCredentialsMsg))⟩
      | [t] =>
        let r := authenticateCredentials hash cfg now saveFails db evs t
        ⟨r.db, r.events, some r.outcome⟩
      | _ => ⟨db, evs, some (.error (.authFailed spacesMsg))⟩

/-! ### Characterization of the cleanup pass -/

/-- The per-sibling test of `_cleanup_token`'s loop, for a fixed digest `g`
of the candidate under verification. -/
def qualAgainst (now : Int) (g : String) (o : AuthTokenRec) : Bool :=
  o.digest != g && isExpiredAt now o

/-- A record deleted by the sibling loop of `_cleanup_token c`: same owner,
different digest, expired. -/
def qualSibling (now : Int) (c t : AuthTokenRec) : Bool :=
  (t.digest != c.digest && isExpiredAt now t) && (t.user.id == c.user.id)

/-- Digests of the records the sibling loop deletes. -/
def sibDelDigests (now : Int) (c : AuthTokenRec) (db : List AuthTokenRec) :
    List String :=
  (db.filter (qualSibling now c)).map (fun o => o.digest)

/-- Events emitted by the sibling loop, in store order. -/
def sibDelEvents (now : Int) (c : AuthTokenRec) (db : List AuthTokenRec) :
    List ExpiredEvent :=
  (db.filter (qualSibling now c)).map
    (fun o => ⟨o.user.username, EventSource.other_token⟩)

theorem cleanupSiblings_eq (now : Int) (g : String) :
    ∀ (sib db : List AuthTokenRec) (evs : List ExpiredEvent),
    cleanupSiblings now g sib db evs =
      (db.filter
        (fun t => !(((sib.filter (qualAgainst now g)).map (fun o => o.digest)).contains t.digest)),
       evs ++ (sib.filter (qualAgainst now g)).map
         (fun o => ⟨o.user.username, EventSource.other_token⟩))
  | [], db, evs => by
    simp [cleanupSiblings]
  | o :: rest, db, evs => by
    rw [cleanupSiblings]
    cases h : qualAgainst now g o with
    | false =>
      rw [show (o.digest != g && isExpiredAt now o) = false from h]
      simp only [Bool.false_eq_true, if_false]
      rw [cleanupSiblings_eq now g rest db evs]
      simp [List.filter_cons, h]
    | true =>
      rw [show (o.digest != g && isExpiredAt now o) = true from h]
      simp only [if_true]
      rw [cleanupSiblings_eq now g rest (deleteTok db o.digest)
        (evs ++ [(⟨o.user.username, EventSource.other_token⟩ : ExpiredEvent)])]
      unfold deleteTok
      rw [List.filter_filter]
      refine Prod.ext ?_ ?_
      · refine List.filter_congr (fun t _ => ?_) |>.symm
        simp only [List.filter_cons, h, if_true, List.map_cons, List.contains_cons]
        simp only [bne]
        cases h1 : t.digest == o.digest <;>
          cases h2 : ((rest.filter (qualAgainst now g)).map (fun o => o.digest)).contains t.digest <;>
            decide
      · simp [List.filter_cons, h]

theorem cleanupToken_deleted (now : Int) (db : List AuthTokenRec)
    (evs : List ExpiredEvent) (c : AuthTokenRec) :
    (cleanupToken now db evs c).deleted = isExpiredAt now c := by
  unfold cleanupToken
  cases h : isExpiredAt now c <;> simp [h]

theorem siblings_filter_eq (now : Int) (db : List AuthTokenRec)
    (c : AuthTokenRec) :
    (siblingsOf db c).filter (qualAgainst now c.digest) =
      db.filter (qualSibling now c) := by
  unfold siblingsOf
  rw [List.filter_filter]
  rfl

theorem cleanupToken_not_expired (now : Int) (db : List AuthTokenRec)
    (evs : List ExpiredEvent) (c : AuthTokenRec)
    (h : isExpiredAt now c = false) :
    cleanupToken now db evs c =
      ⟨db.filter (fun t => !((sibDelDigests now c db).contains t.digest)),
       evs ++ sibDelEvents now c db, false⟩ := by
  unfold cleanupToken
  rw [cleanupSiblings_eq, siblings_filter_eq, h]
  simp [sibDelDigests, sibDelEvents]

theorem cleanupToken_expired (now : Int) (db : List AuthTokenRec)
    (evs : List ExpiredEvent) (c : AuthTokenRec)
    (h : isExpiredAt now c = true) :
    cleanupToken now db evs c =
      ⟨(db.filter (fun t => !((sibDelDigests now c db).contains t.digest))).filter
         (fun t => t.digest != c.digest),
       (evs ++ sibDelEvents now c db) ++ [⟨c.user.username, EventSource.auth_token⟩],
       true⟩ := by
  unfold cleanupToken
  rw [cleanupSiblings_eq, siblings_filter_eq, h]
  simp [sibDelDigests, sibDelEvents, deleteTok]

/-! ### Invariants of the candidate loop -/

theorem cleanupToken_db_sub (now : Int) (db : List AuthTokenRec)
    (evs : List ExpiredEvent) (c t : AuthTokenRec)
    (ht : t ∈ (cleanupToken now db evs c).db) : t ∈ db := by
  cases h : isExpiredAt now c
  · rw [cleanupToken_not_expired now db evs c h] at ht
    exact (List.mem_filter.mp ht).1
  · rw [cleanupToken_expired now db evs c h] at ht
    exact (List.mem_filter.mp (List.mem_filter.mp ht).1).1

theorem cleanupToken_events_mono (now : Int) (db : List AuthTokenRec)
    (evs : List ExpiredEvent) (c : AuthTokenRec) (x : ExpiredEvent)
    (hx : x ∈ evs) : x ∈ (cleanupToken now db evs c).events := by
  cases h : isExpiredAt now c
  · rw [cleanupToken_not_expired now db evs c h]
    exact List.mem_append_left _ hx
  · rw [cleanupToken_expired now db evs c h]
    exact List.mem_append_left _ (List.mem_append_left _ hx)

theorem cleanupToken_expired_digest (now : Int) (db : List AuthTokenRec)
    (evs : List ExpiredEvent) (c : AuthTokenRec)
    (h : isExpiredAt now c = true) :
    c.digest ∉ (cleanupToken now db evs c).db.map (fun t => t.digest) := by
  rw [cleanupToken_expired now db evs c h]
  intro hmem
  rcases List.mem_map.mp hmem with ⟨t, ht, hdg⟩
  have := (List.mem_filter.mp ht).2
  rw [hdg] at this
  simp [bne] at this

theorem cleanupToken_expired_event (now : Int) (db : List AuthTokenRec)
    (evs : List ExpiredEvent) (c : AuthTokenRec)
    (h : isExpiredAt now c = true) :
    (⟨c.user.username, EventSource.auth_token⟩ : ExpiredEvent) ∈
      (cleanupToken now db evs c).events := by
  rw [cleanupToken_expired now db evs c h]
  exact List.mem_append_right _ (List.mem_singleton.mpr rfl)

theorem updateExpiry_map_digest (db : List AuthTokenRec) (d : String) (e : Int) :
    (updateExpiry db d e).map (fun t => t.digest) = db.map (fun t => t.digest) := by
  unfold updateExpiry
  rw [List.map_map]
  refine List.map_eq_map_iff.mpr (fun t _ => ?_)
  simp only [Function.comp]
  split <;> rfl

theorem renewToken_ok (cfg : Config) (now : Int) (sf : Bool)
    (db db2 : List AuthTokenRec) (c c2 : AuthTokenRec)
    (h : renewToken cfg now sf db c = .ok (db2, c2)) :
    c2 = { c with expires := some (now + cfg.tokenTTL) } ∧
      (db2 = db ∨ db2 = updateExpiry db c.digest (now + cfg.tokenTTL)) := by
  unfold renewToken at h
  cases he : c.expires with
  | none => rw [he] at h; exact absurd h (by simp)
  | some cur =>
    rw [he] at h
    simp only at h
    by_cases hth : cfg.minRefreshInterval < now + cfg.tokenTTL - cur
    · rw [if_pos hth] at h
      cases sf
      · simp only [Bool.false_eq_true, if_false] at h
        injection h with h
        injection h with h1 h2
        exact ⟨h2.symm, Or.inr h1.symm⟩
      · simp at h
    · rw [if_neg hth] at h
      injection h with h
      injection h with h1 h2
      exact ⟨h2.symm, Or.inl h1.symm⟩

theorem validateUser_ok (c : AuthTokenRec) (u : UserRec) (t : AuthTokenRec)
    (h : validateUser c = .ok (u, t)) : t = c ∧ u = c.user := by
  unfold validateUser at h
  by_cases ha : c.user.isActive
  · rw [if_pos ha] at h
    injection h with h
    injection h with h1 h2
    exact ⟨h2.symm, h1.symm⟩
  · rw [if_neg ha] at h
    exact absurd h (by simp)

theorem authLoop_events_mono (hash : HashFn) (cfg : Config) (now : Int)
    (sf : Bool) (token : String) (x : ExpiredEvent) :
    ∀ (l db : List AuthTokenRec) (evs : List ExpiredEvent), x ∈ evs →
      x ∈ (authLoop hash cfg now sf token l db evs).events
  | [], db, evs, hx => hx
  | c :: rest, db, evs, hx => by
    rw [authLoop]
    have hc := cleanupToken_events_mono now db evs c x hx
    cases hd : (cleanupToken now db evs c).deleted
    · simp only [hd, Bool.false_eq_true, if_false]
      cases hh : hash token c.salt with
      | none => exact hc
      | some dg =>
        simp only
        by_cases hm : (dg == c.digest) = true
        · rw [if_pos hm]
          cases har : cfg.autoRefresh
          · simp only [Bool.false_eq_true, if_false]
            exact hc
          · simp only [if_true]
            cases hr : renewToken cfg now sf (cleanupToken now db evs c).db c
            · exact hc
            · rename_i p
              cases p
              exact hc
        · rw [if_neg hm]
          exact authLoop_events_mono hash cfg now sf token x rest
            (cleanupToken now db evs c).db (cleanupToken now db evs c).events hc
    · simp only [hd, if_true]
      exact authLoop_events_mono hash cfg now sf token x rest
        (cleanupToken now db evs c).db (cleanupToken now db evs c).events hc

theorem authLoop_digest_absent (hash : HashFn) (cfg : Config) (now : Int)
    (sf : Bool) (token : String) (d : String) :
    ∀ (l db : List AuthTokenRec) (evs : List ExpiredEvent),
      d ∉ db.map (fun t => t.digest) →
      d ∉ (authLoop hash cfg now sf token l db evs).db.map (fun t => t.digest)
  | [], db, evs, hd => hd
  | c :: rest, db, evs, hd => by
    rw [authLoop]
    have hc : d ∉ (cleanupToken now db evs c).db.map (fun t => t.digest) := by
      intro hmem
      rcases List.mem_map.mp hmem with ⟨t, ht, hdg⟩
      exact hd (List.mem_map.mpr ⟨t, cleanupToken_db_sub now db evs c t ht, hdg⟩)
    cases hdel : (cleanupToken now db evs c).deleted
    · simp only [hdel, Bool.false_eq_true, if_false]
      cases hh : hash token c.salt with
      | none => exact hc
      | some dg =>
        simp only
        by_cases hm : (dg == c.digest) = true
        · rw [if_pos hm]
          cases har : cfg.autoRefresh
          · simp only [Bool.false_eq_true, if_false]
            exact hc
          · simp only [if_true]
            cases hr : renewToken cfg now sf (cleanupToken now db evs c).db c
            · exact hc
            · rename_i p
              rcases p with ⟨db2, c2⟩
              simp only
              rcases (renewToken_ok cfg now sf _ db2 c c2 hr).2 with h2 | h2
              · rw [h2]; exact hc
              · rw [h2, updateExpiry_map_digest]; exact hc
        · rw [if_neg hm]
          exact authLoop_digest_absent hash cfg now sf token d rest
            (cleanupToken now db evs c).db (cleanupToken now db evs c).events hc
    · simp only [hdel, if_true]
      exact authLoop_digest_absent hash cfg now sf token d rest
        (cleanupToken now db evs c).db (cleanupToken now db evs c).events hc

theorem authLoop_no_match (hash : HashFn) (cfg : Config) (now : Int)
    (sf : Bool) (token : String) :
    ∀ (l db : List AuthTokenRec) (evs : List ExpiredEvent),
      (∀ c ∈ l, ∃ dg, hash token c.salt = some dg ∧ dg ≠ c.digest) →
      (authLoop hash cfg now sf token l db evs).outcome =
        .error (.authFailed invalidTokenMsg)
  | [], _, _, _ => rfl
  | c :: rest, db, evs, hall => by
    rw [authLoop]
    have hrest : ∀ x ∈ rest, ∃ dg, hash token x.salt = some dg ∧ dg ≠ x.digest :=
      fun x hx => hall x (List.mem_cons_of_mem c hx)
    cases hdel : (cleanupToken now db evs c).deleted
    · simp only [hdel, Bool.false_eq_true, if_false]
      rcases hall c (List.mem_cons_self c rest) with ⟨dg, hdg, hne⟩
      rw [hdg]
      simp only [beq_eq_false_iff_ne.mpr hne, Bool.false_eq_true, if_false]
      exact authLoop_no_match hash cfg now sf token rest _ _ hrest
    · simp only [hdel, if_true]
      exact authLoop_no_match hash cfg now sf token rest _ _ hrest

theorem authLoop_ok_shape (hash : HashFn) (cfg : Config) (now : Int)
    (sf : Bool) (token : String) :
    ∀ (l db : List AuthTokenRec) (evs : List ExpiredEvent)
      (u : UserRec) (t : AuthTokenRec),
      (authLoop hash cfg now sf token l db evs).outcome = .ok (u, t) →
      ∃ c ∈ l, isExpiredAt now c = false ∧ t.digest = c.digest
  | [], _, _, _, _, hok => absurd hok (by simp [authLoop])
  | c :: rest, db, evs, u, t, hok => by
    rw [authLoop] at hok
    cases hdel : (cleanupToken now db evs c).deleted
    · rw [hdel] at hok
      simp only [Bool.false_eq_true, if_false] at hok
      cases hh : hash token c.salt with
      | none =>
        rw [hh] at hok
        exact absurd hok (by simp)
      | some dg =>
        rw [hh] at hok
        simp only at hok
        by_cases hm : (dg == c.digest) = true
        · rw [if_pos hm] at hok
          have hcexp : isExpiredAt now c = false := by
            rw [← cleanupToken_deleted now db evs c, hdel]
          cases har : cfg.autoRefresh
          · rw [har] at hok
            simp only [Bool.false_eq_true, if_false] at hok
            rcases validateUser_ok c u t hok with ⟨ht, _⟩
            exact ⟨c, List.mem_cons_self c rest, hcexp, by rw [ht]⟩
          · rw [har] at hok
            simp only [if_true] at hok
            cases hr : renewToken cfg now sf (cleanupToken now db evs c).db c with
            | error e =>
              rw [hr] at hok
              exact absurd hok (by simp)
            | ok p =>
              rcases p with ⟨db2, c2⟩
              rw [hr] at hok
              simp only at hok
              rcases validateUser_ok c2 u t hok with ⟨ht, _⟩
              rcases renewToken_ok cfg now sf _ db2 c c2 hr with ⟨hc2, _⟩
              exact ⟨c, List.mem_cons_self c rest, hcexp, by rw [ht, hc2]⟩
        · rw [if_neg hm] at hok
          rcases authLoop_ok_shape hash cfg now sf token rest _ _ u t hok with
            ⟨x, hx, hxe, hxd⟩
          exact ⟨x, List.mem_cons_of_mem c hx, hxe, hxd⟩
    · rw [hdel] at hok
      simp only [if_true] at hok
      rcases authLoop_ok_shape hash cfg now sf token rest _ _ u t hok with
        ⟨x, hx, hxe, hxd⟩
      exact ⟨x, List.mem_cons_of_mem c hx, hxe, hxd⟩

theorem authLoop_expired_swept (hash : HashFn) (cfg : Config) (now : Int)
    (sf : Bool) (token : String) (c : AuthTokenRec)
    (hexp : isExpiredAt now c = true) :
    ∀ (l db : List AuthTokenRec) (evs : List ExpiredEvent),
      (∀ x ∈ l, x ≠ c → ∃ dg, hash token x.salt = some dg ∧ dg ≠ x.digest) →
      c ∈ l →
      c.digest ∉ (authLoop hash cfg now sf token l db evs).db.map (fun t => t.digest) ∧
      (⟨c.user.username, EventSource.auth_token⟩ : ExpiredEvent) ∈
        (authLoop hash cfg now sf token l db evs).events
  | [], _, _, _, hmem => absurd hmem (List.not_mem_nil c)
  | c0 :: rest, db, evs, hall, hmem => by
    have hrest : ∀ x ∈ rest, x ≠ c →
        ∃ dg, hash token x.salt = some dg ∧ dg ≠ x.digest :=
      fun x hx => hall x (List.mem_cons_of_mem c0 hx)
    rw [authLoop]
    by_cases hx0 : c0 = c
    · have hexp0 : isExpiredAt now c0 = true := by rw [hx0]; exact hexp
      have hdel : (cleanupToken now db evs c0).deleted = true := by
        rw [cleanupToken_deleted now db evs c0, hexp0]
      simp only [hdel, if_true]
      constructor
      · refine authLoop_digest_absent hash cfg now sf token c.digest rest _ _ ?_
        rw [← hx0]
        exact cleanupToken_expired_digest now db evs c0 hexp0
      · refine authLoop_events_mono hash cfg now sf token _ rest _ _ ?_
        rw [← hx0]
        exact cleanupToken_expired_event now db evs c0 hexp0
    · have hmem2 : c ∈ rest := by
        rcases List.mem_cons.mp hmem with h | h
        · exact absurd h.symm hx0
        · exact h
      cases hdel : (cleanupToken now db evs c0).deleted
      · simp only [hdel, Bool.false_eq_true, if_false]
        rcases hall c0 (List.mem_cons_self c0 rest) hx0 with ⟨dg, hdg, hne⟩
        rw [hdg]
        simp only [beq_eq_false_iff_ne.mpr hne, Bool.false_eq_true, if_false]
        exact authLoop_expired_swept hash cfg now sf token c hexp rest _ _ hrest hmem2
      · simp only [hdel, if_true]
        exact authLoop_expired_swept hash cfg now sf token c hexp rest _ _ hrest hmem2

theorem authLoop_no_match_skip (hash : HashFn) (cfg : Config) (now : Int)
    (sf : Bool) (token : String) (c : AuthTokenRec)
    (hexp : isExpiredAt now c = true) :
    ∀ (l db : List AuthTokenRec) (evs : List ExpiredEvent),
      (∀ x ∈ l, x ≠ c → ∃ dg, hash token x.salt = some dg ∧ dg ≠ x.digest) →
      (authLoop hash cfg now sf token l db evs).outcome =
        .error (.authFailed invalidTokenMsg)
  | [], _, _, _ => rfl
  | c0 :: rest, db, evs, hall => by
    have hrest : ∀ x ∈ rest, x ≠ c →
        ∃ dg, hash token x.salt = some dg ∧ dg ≠ x.digest :=
      fun x hx => hall x (List.mem_cons_of_mem c0 hx)
    rw [authLoop]
    by_cases hx0 : c0 = c
    · have hexp0 : isExpiredAt now c0 = true := by rw [hx0]; exact hexp
      have hdel : (cleanupToken now db evs c0).deleted = true := by
        rw [cleanupToken_deleted now db evs c0, hexp0]
      simp only [hdel, if_true]
      exact authLoop_no_match_skip hash cfg now sf token c hexp rest _ _ hrest
    · cases hdel : (cleanupToken now db evs c0).deleted
      · simp only [hdel, Bool.false_eq_true, if_false]
        rcases hall c0 (List.mem_cons_self c0 rest) hx0 with ⟨dg, hdg, hne⟩
        rw [hdg]
        simp only [beq_eq_false_iff_ne.mpr hne, Bool.false_eq_true, if_false]
        exact authLoop_no_match_skip hash cfg now sf token c hexp rest _ _ hrest
      · simp only [hdel, if_true]
        exact authLoop_no_match_skip hash cfg now sf token c hexp rest _ _ hrest

theorem authLoop_head_match_noRefresh (hash : HashFn) (cfg : Config)
    (now : Int) (sf : Bool) (token : String) (c : AuthTokenRec)
    (rest db : List AuthTokenRec) (evs : List ExpiredEvent)
    (hfresh : isExpiredAt now c = false)
    (hmatch : hash token c.salt = some c.digest)
    (har : cfg.autoRefresh = false) :
    authLoop hash cfg now sf token (c :: rest) db evs =
      ⟨(cleanupToken now db evs c).db, (cleanupToken now db evs c).events,
       validateUser c⟩ := by
  rw [authLoop]
  have hdel : (cleanupToken now db evs c).deleted = false := by
    rw [cleanupToken_deleted, hfresh]
  simp only [hdel, Bool.false_eq_true, if_false, hmatch, beq_self_eq_true,
    if_true, har]

theorem authLoop_head_match_refresh (hash : HashFn) (cfg : Config)
    (now : Int) (sf : Bool) (token : String) (c : AuthTokenRec)
    (rest db : List AuthTokenRec) (evs : List ExpiredEvent)
    (hfresh : isExpiredAt now c = false)
    (hmatch : hash token c.salt = some c.digest)
    (har : cfg.autoRefresh = true) :
    authLoop hash cfg now sf token (c :: rest) db evs =
      (match renewToken cfg now sf (cleanupToken now db evs c).db c with
       | .error e =>
         ⟨(cleanupToken now db evs c).db, (cleanupToken now db evs c).events,
          .error e⟩
       | .ok (db2, c2) =>
         ⟨db2, (cleanupToken now db evs c).events, validateUser c2⟩) := by
  rw [authLoop]
  have hdel : (cleanupToken now db evs c).deleted = false := by
    rw [cleanupToken_deleted, hfresh]
  simp only [hdel, Bool.false_eq_true, if_false, hmatch, beq_self_eq_true,
    if_true, har]

theorem renewToken_none (cfg : Config) (now : Int) (sf : Bool)
    (db : List AuthTokenRec) (c : AuthTokenRec) (hexp : c.expires = none) :
    renewToken cfg now sf db c = .error .typeError := by
  unfold renewToken
  rw [hexp]

theorem renewToken_write (cfg : Config) (now : Int)
    (db : List AuthTokenRec) (c : AuthTokenRec) (cur : Int)
    (hexp : c.expires = some cur)
    (hth : cfg.minRefreshInterval < now + cfg.tokenTTL - cur) :
    renewToken cfg now false db c =
      .ok (updateExpiry db c.digest (now + cfg.tokenTTL),
           { c with expires := some (now + cfg.tokenTTL) }) := by
  unfold renewToken
  rw [hexp]
  simp only [hth, if_true, Bool.false_eq_true, if_false]

theorem renewToken_saveFailure (cfg : Config) (now : Int)
    (db : List AuthTokenRec) (c : AuthTokenRec) (cur : Int)
    (hexp : c.expires = some cur)
    (hth : cfg.minRefreshInterval < now + cfg.tokenTTL - cur) :
    renewToken cfg now true db c = .error .storeError := by
  unfold renewToken
  rw [hexp]
  simp only [hth, if_true]

theorem sibDelDigests_contains (now : Int) (c : AuthTokenRec)
    (db : List AuthTokenRec)
    (hnd : (db.map (fun t => t.digest)).Nodup)
    (t : AuthTokenRec) (ht : t ∈ db) :
    (sibDelDigests now c db).contains t.digest = qualSibling now c t := by
  cases hq : qualSibling now c t
  · cases hc : (sibDelDigests now c db).contains t.digest
    · rfl
    · exfalso
      have hmem : t.digest ∈ sibDelDigests now c db := List.elem_iff.mp hc
      rcases List.mem_map.mp hmem with ⟨s, hs, hdg⟩
      have hsdb : s ∈ db := (List.mem_filter.mp hs).1
      have hqs : qualSibling now c s = true := (List.mem_filter.mp hs).2
      have hst : s = t := List.inj_on_of_nodup_map hnd hsdb ht hdg
      rw [hst] at hqs
      rw [hqs] at hq
      exact Bool.true_eq_false.mp hq
  · have hf : t ∈ db.filter (qualSibling now c) := List.mem_filter.mpr ⟨ht, hq⟩
    have hmem : t.digest ∈ sibDelDigests now c db :=
      List.mem_map.mpr ⟨t, hf, rfl⟩
    exact List.elem_iff.mpr hmem

theorem candidates_digest_nodup (cfg : Config) (db : List AuthTokenRec)
    (token : String) (hnd : (db.map (fun t => t.digest)).Nodup) :
    ((candidatesFor cfg db token).map (fun t => t.digest)).Nodup := by
  unfold candidatesFor
  exact hnd.sublist ((List.filter_sublist db).map (fun t => t.digest))

/-! ### Concrete fixtures used by the witnesses and counterexamples -/

def uActive : UserRec := ⟨1, "alice", true⟩

def uInactive : UserRec := ⟨2, "bob", false⟩

def hashConcat : HashFn := fun s sl => some (s ++ sl)

def hashMiss : HashFn := fun s sl => some (s ++ sl ++ "x")

def hashNone : HashFn := fun _ _ => none

def cfgNoRefresh : Config := ⟨3, false, 100, 60⟩

def cfgRefresh : Config := ⟨3, true, 1000, 60⟩

def tokExpired : AuthTokenRec := ⟨"abc", "D1", "s", uActive, some 0⟩

def tokExpiredMatch : AuthTokenRec := ⟨"abc", "abcrest|s", "|s", uActive, some 0⟩

def tokFresh : AuthTokenRec := ⟨"abc", "abcrest|s", "|s", uActive, some 500⟩

def tokNoExpiry : AuthTokenRec := ⟨"abc", "abcrest|s", "|s", uActive, none⟩

def tokInactive : AuthTokenRec := ⟨"abc", "abcrest|s", "|s", uInactive, some 500⟩

def sibExpired : AuthTokenRec := ⟨"zzz", "D2", "s2", uActive, some 5⟩

def sibFresh : AuthTokenRec := ⟨"zzz", "D3", "s3", uActive, some 99⟩

/-! ### The claims -/

/-- Claim C1: in `authenticate_credentials`, a candidate whose `expires` is
set and strictly in the past is never the successfully returned token
(first conjunct, assuming the store's digest-uniqueness invariant); and
when no *other* candidate's digest matches the presented secret — with no
condition at all on the expired candidate itself, whose hash is never even
computed because the cleanup pass skips it, so in particular the presented
secret may be the expired token itself — the cleanup pass deletes the
expired candidate, emits a `token_expired` event with
`source="auth_token"` for it, and the call fails with the generic
`Invalid token.` failure (second conjunct). -/
theorem claim1_expired_never_accepted (hash : HashFn) (cfg : Config)
    (now : Int) (sf : Bool) (db : List AuthTokenRec) (evs : List ExpiredEvent)
    (token : String) (c : AuthTokenRec)
    (hmem : c ∈ candidatesFor cfg db token)
    (hexp : isExpiredAt now c = true)
    (hnd : (db.map (fun t => t.digest)).Nodup) :
    (∀ u t,
       (authenticateCredentials hash cfg now sf db evs token).outcome = .ok (u, t) →
       t.digest ≠ c.digest)
    ∧ ((∀ x ∈ candidatesFor cfg db token, x ≠ c →
          ∃ dg, hash token x.salt = some dg ∧ dg ≠ x.digest) →
        c.digest ∉ (authenticateCredentials hash cfg now sf db evs token).db.map
            (fun t => t.digest)
        ∧ (⟨c.user.username, EventSource.auth_token⟩ : ExpiredEvent) ∈
            (authenticateCredentials hash cfg now sf db evs token).events
        ∧ (authenticateCredentials hash cfg now sf db evs token).outcome =
            .error (.authFailed invalidTokenMsg)) := by
  unfold authenticateCredentials
  constructor
  · intro u t hok hdg
    rcases authLoop_ok_shape hash cfg now sf token (candidatesFor cfg db token)
      db evs u t hok with ⟨x, hx, hxe, hxd⟩
    have hcd : ((candidatesFor cfg db token).map (fun t => t.digest)).Nodup :=
      candidates_digest_nodup cfg db token hnd
    have hxc : x = c :=
      List.inj_on_of_nodup_map hcd hx hmem (by rw [← hxd, hdg])
    rw [hxc, hexp] at hxe
    exact Bool.true_eq_false.mp hxe
  · intro hall
    exact ⟨(authLoop_expired_swept hash cfg now sf token c hexp _ db evs hall hmem).1,
      (authLoop_expired_swept hash cfg now sf token c hexp _ db evs hall hmem).2,
      authLoop_no_match_skip hash cfg now sf token c hexp _ db evs hall⟩

theorem claim1_witness :
    tokExpiredMatch.digest ∉
      (authenticateCredentials hashConcat cfgNoRefresh 10 false
        [tokExpiredMatch] [] "abcrest").db.map (fun t => t.digest)
    ∧ (⟨tokExpiredMatch.user.username, EventSource.auth_token⟩ : ExpiredEvent) ∈
        (authenticateCredentials hashConcat cfgNoRefresh 10 false
          [tokExpiredMatch] [] "abcrest").events
    ∧ (authenticateCredentials hashConcat cfgNoRefresh 10 false
        [tokExpiredMatch] [] "abcrest").outcome =
        .error (.authFailed invalidTokenMsg) := by
  have h := claim1_expired_never_accepted hashConcat cfgNoRefresh 10 false
    [tokExpiredMatch] [] "abcrest" tokExpiredMatch (by decide) (by decide)
    (by decide)
  refine h.2 ?_
  intro x hx hne
  exfalso
  have hcs : candidatesFor cfgNoRefresh [tokExpiredMatch] "abcrest" =
      [tokExpiredMatch] := by decide
  rw [hcs] at hx
  exact hne (List.mem_singleton.mp hx)

/-- Claim C2 is refuted: the three failure causes do not all surface the
identical failure value.  At this input a matched digest with an inactive
owner fails with message `User inactive or deleted.`, while the
no-candidate case fails with `Invalid token.` — two distinguishable
failure values. -/
theorem claim2_counterexample :
    (authenticateCredentials hashConcat cfgNoRefresh 10 false [tokInactive] []
      "abcrest").outcome = .error (.authFailed inactiveUserMsg)
    ∧ (authenticateCredentials hashConcat cfgNoRefresh 10 false [] []
        "abcrest").outcome = .error (.authFailed invalidTokenMsg)
    ∧ (AuthError.authFailed inactiveUserMsg) ≠
        (AuthError.authFailed invalidTokenMsg) := by
  exact ⟨rfl, rfl, by decide⟩

/-- Claim C2 amended: the no-candidate and digest-mismatch causes surface
the identical generic `Invalid token.` failure, but the inactive-user case
fails with the same exception class carrying the distinct message
`User inactive or deleted.`. -/
theorem claim2_amended (hash : HashFn) (cfg : Config) (now : Int) (sf : Bool)
    (db : List AuthTokenRec) (evs : List ExpiredEvent) (token : String) :
    ((∀ x ∈ candidatesFor cfg db token,
        ∃ dg, hash token x.salt = some dg ∧ dg ≠ x.digest) →
      (authenticateCredentials hash cfg now sf db evs token).outcome =
        .error (.authFailed invalidTokenMsg))
    ∧ (∀ c rest, candidatesFor cfg db token = c :: rest →
        isExpiredAt now c = false →
        hash token c.salt = some c.digest →
        cfg.autoRefresh = false →
        c.user.isActive = false →
        (authenticateCredentials hash cfg now sf db evs token).outcome =
          .error (.authFailed inactiveUserMsg))
    ∧ invalidTokenMsg ≠ inactiveUserMsg := by
  refine ⟨?_, ?_, by decide⟩
  · intro hall
    exact authLoop_no_match hash cfg now sf token _ db evs hall
  · intro c rest hc hfresh hmatch har hinact
    unfold authenticateCredentials
    rw [hc, authLoop_head_match_noRefresh hash cfg now sf token c rest db evs
      hfresh hmatch har]
    simp only [validateUser, hinact, Bool.false_eq_true, if_false]

theorem claim2_amended_witness :
    (authenticateCredentials hashMiss cfgNoRefresh 10 false [tokFresh] []
      "abcrest").outcome = .error (.authFailed invalidTokenMsg)
    ∧ (authenticateCredentials hashConcat cfgNoRefresh 10 false [tokInactive] []
        "abcrest").outcome = .error (.authFailed inactiveUserMsg) := by
  have h1 := claim2_amended hashMiss cfgNoRefresh 10 false [tokFresh] [] "abcrest"
  have h2 := claim2_amended hashConcat cfgNoRefresh 10 false [tokInactive] [] "abcrest"
  constructor
  · refine h1.1 ?_
    intro x hx
    have hcs : candidatesFor cfgNoRefresh [tokFresh] "abcrest" = [tokFresh] := by
      decide
    rw [hcs] at hx
    rw [List.mem_singleton.mp hx]
    exact ⟨"abcrest|sx", rfl, by decide⟩
  · exact h2.2.1 tokInactive [] (by decide) (by decide) rfl rfl rfl

/-- Claim C3: the cleanup pass deletes exactly the owner's sibling records
with a different digest whose `expires` is set and in the past (emitting a
`token_expired` event with `source="other_token"` for each, in store
order), then deletes the candidate itself exactly when its own `expires`
is set and in the past (emitting `source="auth_token"`), returning `true`
in that case and `false` — deleting no candidate — when `expires` is unset
or in the future.  Stated under the store's digest-uniqueness invariant. -/
theorem claim3_cleanup_spec (now : Int) (db : List AuthTokenRec)
    (evs : List ExpiredEvent) (c : AuthTokenRec)
    (hnd : (db.map (fun t => t.digest)).Nodup) :
    (cleanupToken now db evs c).deleted = isExpiredAt now c
    ∧ (cleanupToken now db evs c).db =
        db.filter (fun t => !(qualSibling now c t)
          && !(isExpiredAt now c && t.digest == c.digest))
    ∧ (cleanupToken now db evs c).events =
        (evs ++ sibDelEvents now c db) ++
          (if isExpiredAt now c
            then [⟨c.user.username, EventSource.auth_token⟩] else [])
    ∧ (isExpiredAt now c = false → c ∈ db → c ∈ (cleanupToken now db evs c).db) := by
  have hdb : (cleanupToken now db evs c).db =
      db.filter (fun t => !(qualSibling now c t)
        && !(isExpiredAt now c && t.digest == c.digest)) := by
    cases h : isExpiredAt now c
    · rw [cleanupToken_not_expired now db evs c h]
      refine List.filter_congr (fun t ht => ?_)
      rw [sibDelDigests_contains now c db hnd t ht]
      cases qualSibling now c t <;> cases t.digest == c.digest <;> decide
    · rw [cleanupToken_expired now db evs c h]
      rw [List.filter_filter]
      refine List.filter_congr (fun t ht => ?_)
      rw [sibDelDigests_contains now c db hnd t ht]
      simp only [bne]
      cases qualSibling now c t <;> cases t.digest == c.digest <;> decide
  refine ⟨cleanupToken_deleted now db evs c, hdb, ?_, ?_⟩
  · cases h : isExpiredAt now c
    · rw [cleanupToken_not_expired now db evs c h]
      simp
    · rw [cleanupToken_expired now db evs c h]
      simp
  · intro h hcdb
    rw [hdb, h]
    refine List.mem_filter.mpr ⟨hcdb, ?_⟩
    simp [qualSibling]

theorem claim3_witness :
    (cleanupToken 10 [tokExpired, sibExpired, sibFresh] [] tokExpired).deleted =
      isExpiredAt 10 tokExpired
    ∧ (cleanupToken 10 [tokExpired, sibExpired, sibFresh] [] tokExpired).db =
        ([tokExpired, sibExpired, sibFresh].filter
          (fun t => !(qualSibling 10 tokExpired t)
            && !(isExpiredAt 10 tokExpired && t.digest == tokExpired.digest)))
    ∧ (cleanupToken 10 [tokExpired, sibExpired, sibFresh] [] tokExpired).events =
        (([] : List ExpiredEvent) ++
          sibDelEvents 10 tokExpired [tokExpired, sibExpired, sibFresh]) ++
          (if isExpiredAt 10 tokExpired
            then [⟨tokExpired.user.username, EventSource.auth_token⟩] else [])
    ∧ (isExpiredAt 10 tokExpired = false →
        tokExpired ∈ [tokExpired, sibExpired, sibFresh] →
        tokExpired ∈ (cleanupToken 10 [tokExpired, sibExpired, sibFresh] []
          tokExpired).db) :=
  claim3_cleanup_spec 10 [tokExpired, sibExpired, sibFresh] [] tokExpired
    (by decide)

/-- Claim C4: when renewal runs on a matched token whose previous expiry is
set, the in-memory `expires` of the record handed onwards is
unconditionally `now + TOKEN_TTL`, and the durable write of the `expires`
field happens if and only if the new expiry exceeds the previous one by
more than `MIN_REFRESH_INTERVAL`. -/
theorem claim4_renewal_throttle (cfg : Config) (now : Int)
    (db : List AuthTokenRec) (c : AuthTokenRec) (cur : Int)
    (h : c.expires = some cur) :
    renewToken cfg now false db c =
      .ok (if cfg.minRefreshInterval < now + cfg.tokenTTL - cur
             then updateExpiry db c.digest (now + cfg.tokenTTL) else db,
           { c with expires := some (now + cfg.tokenTTL) }) := by
  by_cases hth : cfg.minRefreshInterval < now + cfg.tokenTTL - cur
  · simp [renewToken, h, hth]
  · simp [renewToken, h, hth]

theorem claim4_witness :
    renewToken cfgRefresh 100 false [tokFresh] tokFresh =
      .ok (if cfgRefresh.minRefreshInterval < 100 + cfgRefresh.tokenTTL - 500
             then updateExpiry [tokFresh] tokFresh.digest
               (100 + cfgRefresh.tokenTTL)
             else [tokFresh],
           { tokFresh with expires := some (100 + cfgRefresh.tokenTTL) }) :=
  claim4_renewal_throttle cfgRefresh 100 [tokFresh] tokFresh 500 rfl

/-- Claim C5 is refuted: a failing durable write after a digest match is
not swallowed — `authenticate_credentials` has no handler around the
renewal's `save`, so the overall call fails.  At this input the digest
matches and the save fails; the outcome is the propagated store failure,
while the identical input with a succeeding store authenticates. -/
theorem claim5_counterexample :
    (authenticateCredentials hashConcat cfgRefresh 100 true [tokFresh] []
      "abcrest").outcome = .error .storeError
    ∧ (authenticateCredentials hashConcat cfgRefresh 100 false [tokFresh] []
        "abcrest").outcome =
        .ok (uActive, { tokFresh with expires := some 1100 }) := ⟨rfl, rfl⟩

/-- Claim C5 amended: a failure of the renewal's durable write after a
digest match is not swallowed — it propagates and the overall
authentication call fails with the store failure. -/
theorem claim5_write_failure_propagates (hash : HashFn) (cfg : Config)
    (now : Int) (db : List AuthTokenRec) (evs : List ExpiredEvent)
    (token : String) (c : AuthTokenRec) (rest : List AuthTokenRec) (cur : Int)
    (hc : candidatesFor cfg db token = c :: rest)
    (hfresh : isExpiredAt now c = false)
    (hexp : c.expires = some cur)
    (hmatch : hash token c.salt = some c.digest)
    (har : cfg.autoRefresh = true)
    (hth : cfg.minRefreshInterval < now + cfg.tokenTTL - cur) :
    (authenticateCredentials hash cfg now true db evs token).outcome =
      .error .storeError := by
  unfold authenticateCredentials
  rw [hc, authLoop_head_match_refresh hash cfg now true token c rest db evs
      hfresh hmatch har,
    renewToken_saveFailure cfg now _ c cur hexp hth]

theorem claim5_amended_witness :
    (authenticateCredentials hashConcat cfgRefresh 100 true [tokFresh] []
      "abcrest").outcome = .error .storeError :=
  claim5_write_failure_propagates hashConcat cfgRefresh 100 [tokFresh] []
    "abcrest" tokFresh [] 500 (by decide) (by decide) rfl rfl rfl (by decide)

/-- Claim C6: `authenticate` yields the no-credential result (`none`, store
untouched) when the header has no words or its first word lowercased is not
`token`; fails with the malformed-header `AuthenticationFailed` messages
when the scheme word is followed by zero words or by more than one word;
and with exactly one word after the scheme word delegates that word to
`authenticate_credentials`. -/
theorem claim6_header_dispatch (hash : HashFn) (cfg : Config) (now : Int)
    (sf : Bool) (db : List AuthTokenRec) (evs : List ExpiredEvent)
    (header : String) :
    (splitWords header = [] →
      authenticate hash cfg now sf db evs header = ⟨db, evs, none⟩)
    ∧ (∀ w rest, splitWords header = w :: rest → lowerStr w ≠ "token" →
        authenticate hash cfg now sf db evs header = ⟨db, evs, none⟩)
    ∧ (∀ w, splitWords header = [w] → lowerStr w = "token" →
        authenticate hash cfg now sf db evs header =
          ⟨db, evs, some (.error (.authFailed noCredentialsMsg))⟩)
    ∧ (∀ w t1 t2 rest, splitWords header = w :: t1 :: t2 :: rest →
        lowerStr w = "token" →
        authenticate hash cfg now sf db evs header =
          ⟨db, evs, some (.error (.authFailed spacesMsg))⟩)
    ∧ (∀ w t, splitWords header = [w, t] → lowerStr w = "token" →
        authenticate hash cfg now sf db evs header =
          ⟨(authenticateCredentials hash cfg now sf db evs t).db,
           (authenticateCredentials hash cfg now sf db evs t).events,
           some (authenticateCredentials hash cfg now sf db evs t).outcome⟩) := by
  refine ⟨?_, ?_, ?_, ?_, ?_⟩
  · intro hs
    unfold authenticate
    rw [hs]
  · intro w rest hs hw
    unfold authenticate
    rw [hs]
    simp only [bne_iff_ne, ne_eq, hw, not_false_eq_true, if_true]
  · intro w hs hw
    unfold authenticate
    rw [hs]
    simp only [bne, hw, beq_self_eq_true, Bool.not_true, Bool.false_eq_true,
      if_false]
  · intro w t1 t2 rest hs hw
    unfold authenticate
    rw [hs]
    simp only [bne, hw, beq_self_eq_true, Bool.not_true, Bool.false_eq_true,
      if_false]
  · intro w t hs hw
    unfold authenticate
    rw [hs]
    simp only [bne, hw, beq_self_eq_true, Bool.not_true, Bool.false_eq_true,
      if_false]

theorem claim6_witness :
    authenticate hashConcat cfgNoRefresh 10 false [tokFresh] [] "Basic xyz" =
      ⟨[tokFresh], [], none⟩
    ∧ authenticate hashConcat cfgNoRefresh 10 false [tokFresh] [] "Token a b" =
        ⟨[tokFresh], [], some (.error (.authFailed spacesMsg))⟩
    ∧ authenticate hashConcat cfgNoRefresh 10 false [tokFresh] [] "Token" =
        ⟨[tokFresh], [], some (.error (.authFailed noCredentialsMsg))⟩
    ∧ authenticate hashConcat cfgNoRefresh 10 false [tokFresh] [] "" =
        ⟨[tokFresh], [], none⟩
    ∧ authenticate hashConcat cfgNoRefresh 10 false [tokFresh] []
        "ToKeN abcrest" =
        ⟨(authenticateCredentials hashConcat cfgNoRefresh 10 false [tokFresh]
            [] "abcrest").db,
         (authenticateCredentials hashConcat cfgNoRefresh 10 false [tokFresh]
            [] "abcrest").events,
         some (authenticateCredentials hashConcat cfgNoRefresh 10 false
            [tokFresh] [] "abcrest").outcome⟩ := by
  refine ⟨?_, ?_, ?_, ?_, ?_⟩
  · exact (claim6_header_dispatch hashConcat cfgNoRefresh 10 false [tokFresh]
      [] "Basic xyz").2.1 "Basic" ["xyz"] rfl (by decide)
  · exact (claim6_header_dispatch hashConcat cfgNoRefresh 10 false [tokFresh]
      [] "Token a b").2.2.2.1 "Token" "a" "b" [] rfl (by decide)
  · exact (claim6_header_dispatch hashConcat cfgNoRefresh 10 false [tokFresh]
      [] "Token").2.2.1 "Token" rfl (by decide)
  · exact (claim6_header_dispatch hashConcat cfgNoRefresh 10 false [tokFresh]
      [] "").1 rfl
  · exact (claim6_header_dispatch hashConcat cfgNoRefresh 10 false [tokFresh]
      [] "ToKeN abcrest").2.2.2.2 "ToKeN" "abcrest" rfl (by decide)

/-- Claim C7: when hashing the presented secret against the candidate under
examination fails (structurally invalid input to the hash), the call fails
immediately with the generic `Invalid token.` failure; the result is
independent of the remaining candidates, which are never examined. -/
theorem claim7_hash_failure_immediate (hash : HashFn) (cfg : Config)
    (now : Int) (sf : Bool) (token : String) (c : AuthTokenRec)
    (db : List AuthTokenRec) (evs : List ExpiredEvent)
    (hfresh : isExpiredAt now c = false)
    (hfail : hash token c.salt = none) :
    ∀ rest, authLoop hash cfg now sf token (c :: rest) db evs =
      ⟨(cleanupToken now db evs c).db, (cleanupToken now db evs c).events,
       .error (.authFailed invalidTokenMsg)⟩ := by
  intro rest
  rw [authLoop]
  have hdel : (cleanupToken now db evs c).deleted = false := by
    rw [cleanupToken_deleted, hfresh]
  simp only [hdel, Bool.false_eq_true, if_false, hfail]

theorem claim7_witness :
    authLoop hashNone cfgNoRefresh 10 false "abcrest"
      [tokFresh, tokExpired] [tokFresh, tokExpired] [] =
      ⟨(cleanupToken 10 [tokFresh, tokExpired] [] tokFresh).db,
       (cleanupToken 10 [tokFresh, tokExpired] [] tokFresh).events,
       .error (.authFailed invalidTokenMsg)⟩ :=
  claim7_hash_failure_immediate hashNone cfgNoRefresh 10 false "abcrest"
    tokFresh [tokFresh, tokExpired] [] (by decide) rfl [tokExpired]

/-- Claim C9: with AUTO_REFRESH enabled, a matching candidate whose
`expires` is unset makes `renew_token` subtract `None` from the new expiry,
raising an unhandled `TypeError`: `authenticate_credentials` ends with that
exception instead of returning the identity for the otherwise valid
token. -/
theorem claim9_autorefresh_crash (hash : HashFn) (cfg : Config) (now : Int)
    (sf : Bool) (db : List AuthTokenRec) (evs : List ExpiredEvent)
    (token : String) (c : AuthTokenRec) (rest : List AuthTokenRec)
    (hc : candidatesFor cfg db token = c :: rest)
    (hexp : c.expires = none)
    (hmatch : hash token c.salt = some c.digest)
    (har : cfg.autoRefresh = true) :
    (authenticateCredentials hash cfg now sf db evs token).outcome =
      .error .typeError := by
  have hfresh : isExpiredAt now c = false := by
    simp [isExpiredAt, hexp]
  unfold authenticateCredentials
  rw [hc, authLoop_head_match_refresh hash cfg now sf token c rest db evs
      hfresh hmatch har,
    renewToken_none cfg now sf _ c hexp]

theorem claim9_witness :
    (authenticateCredentials hashConcat cfgRefresh 100 false [tokNoExpiry] []
      "abcrest").outcome = .error .typeError :=
  claim9_autorefresh_crash hashConcat cfgRefresh 100 false [tokNoExpiry] []
    "abcrest" tokNoExpiry [] (by decide) rfl rfl rfl

/-- Claim C10: with AUTO_REFRESH enabled and a matched digest, renewal runs
before the owner's active check: when the owner is inactive the call fails
with the inactive-user failure, yet the durable write of the renewed
expiry has already been performed on the store. -/
theorem claim10_renew_before_validate (hash : HashFn) (cfg : Config)
    (now : Int) (db : List AuthTokenRec) (evs : List ExpiredEvent)
    (token : String) (c : AuthTokenRec) (rest : List AuthTokenRec) (cur : Int)
    (hc : candidatesFor cfg db token = c :: rest)
    (hfresh : isExpiredAt now c = false)
    (hexp : c.expires = some cur)
    (hmatch : hash token c.salt = some c.digest)
    (har : cfg.autoRefresh = true)
    (hth : cfg.minRefreshInterval < now + cfg.tokenTTL - cur)
    (hinact : c.user.isActive = false) :
    (authenticateCredentials hash cfg now false db evs token).outcome =
      .error (.authFailed inactiveUserMsg)
    ∧ (authenticateCredentials hash cfg now false db evs token).db =
        updateExpiry (cleanupToken now db evs c).db c.digest
          (now + cfg.tokenTTL) := by
  unfold authenticateCredentials
  rw [hc, authLoop_head_match_refresh hash cfg now false token c rest db evs
      hfresh hmatch har,
    renewToken_write cfg now _ c cur hexp hth]
  constructor
  · show validateUser { c with expires := some (now + cfg.tokenTTL) } =
      .error (.authFailed inactiveUserMsg)
    unfold validateUser
    rw [show ({ c with expires := some (now + cfg.tokenTTL) } :
        AuthTokenRec).user.isActive = false from hinact]
    simp
  · rfl

theorem claim10_witness :
    (authenticateCredentials hashConcat cfgRefresh 100 false [tokInactive] []
      "abcrest").outcome = .error (.authFailed inactiveUserMsg)
    ∧ (authenticateCredentials hashConcat cfgRefresh 100 false [tokInactive] []
        "abcrest").db =
        updateExpiry (cleanupToken 100 [tokInactive] [] tokInactive).db
          tokInactive.digest (100 + cfgRefresh.tokenTTL) :=
  claim10_renew_before_validate hashConcat cfgRefresh 100 [tokInactive] []
    "abcrest" tokInactive [] 500 (by decide) (by decide) rfl rfl rfl
    (by decide) rfl

end Knox
